import Mathlib

/-!
Verification of the mathvis repository core: a shallow embedding of the
screen/coordinate context, the quality enum, the linear-algebra layer
(vectors and matrices over exact arithmetic), and the frame-generation
engine of `move_along_parametric`.

Conventions of the embedding:
* Rust `f32`/`f64` arithmetic is modelled exactly, with `ℚ` where the code is
  purely rational and `ℝ` where trigonometric functions or square roots occur.
  Division is total (as for IEEE floats, where `x / 0` is not an error);
  this is noted at each definition where it matters.
* Rust `u32` counters are modelled as `Nat`; the frame counts involved are
  far below the wrap-around boundary, which is out of scope here.
* Fallible Rust functions returning `Result<_, Box<dyn Error>>` are modelled
  with `Except String _`; functions mutating `&mut self` return the new state
  paired with the `Except` outcome.
* The fork-join frame batch of `move_along_parametric` is modelled by a
  per-frame outcome function `taskOk : Nat → Bool` (frame task `i` either
  increments the shared completed counter or sets the shared error flag,
  exactly one of the two, as in the source closure).
-/

/-- The 2D screen context from `src/api/screen.rs`: axis ranges, save
directory, frame counter, fps and output resolution.  Axis pairs are
`(min, max)`. -/
structure Screen2D where
  x_axis : ℚ × ℚ
  y_axis : ℚ × ℚ
  save_directory : String
  current_frame : Nat
  fps : Nat
  width : Nat
  height : Nat
deriving DecidableEq, Repr

/-- `Screen2D::new` from `src/api/screen.rs`: requires `start < end` on both
axes, starts the frame counter at 0. -/
def Screen2D.new (xr yr : ℚ × ℚ) (save_directory : String)
    (fps width height : Nat) : Option Screen2D :=
  if xr.1 < xr.2 ∧ yr.1 < yr.2 then
    some { x_axis := xr, y_axis := yr, save_directory := save_directory,
           current_frame := 0, fps := fps, width := width, height := height }
  else
    none

/-- `Screen2D::change_dimensions` from `src/api/screen.rs`: same validation
as `new`; on success replaces both axis ranges, on failure leaves the screen
unchanged. -/
def Screen2D.change_dimensions (s : Screen2D) (xr yr : ℚ × ℚ) :
    Screen2D × Except String Unit :=
  if xr.1 < xr.2 ∧ yr.1 < yr.2 then
    ({ s with x_axis := xr, y_axis := yr }, .ok ())
  else
    (s, .error ("Invalid axes dimensions."))

/-- `Screen2D::get_center_pixels` from `src/api/screen.rs`:
`ratio_x = |x_min| / (|x_max| + |x_min|)`, `ratio_y = |y_max| / (|y_max| + |y_min|)`,
result `(width * ratio_x, height * ratio_y)`. -/
def Screen2D.get_center_pixels (s : Screen2D) : ℚ × ℚ :=
  ((s.width : ℚ) * (|s.x_axis.1| / (|s.x_axis.2| + |s.x_axis.1|)),
   (s.height : ℚ) * (|s.y_axis.2| / (|s.y_axis.2| + |s.y_axis.1|)))

/-- `Screen2D::change_current_frame` from `src/api/screen.rs`: succeeds and
replaces the counter only when the new value is strictly greater (error text
abbreviated, without the apostrophe of the source message). -/
def Screen2D.change_current_frame (s : Screen2D) (val : Nat) :
    Screen2D × Except String Unit :=
  if s.current_frame < val then
    ({ s with current_frame := val }, .ok ())
  else
    (s, .error ("You cannot change the frame to an earlier one."))

/-- The resolution quality enum from `src/api/util.rs`. -/
inductive Quality where
  | LOW
  | MEDIUM
  | HIGH
  | ULTRA
deriving DecidableEq, Repr

/-- `Quality::new` from `src/api/util.rs`: the `match (x, y)` over the four
supported resolutions, every other pair yields `None`. -/
def Quality.new (x y : Nat) : Option Quality :=
  if x = 854 ∧ y = 480 then some .LOW
  else if x = 1280 ∧ y = 720 then some .MEDIUM
  else if x = 1920 ∧ y = 1080 then some .HIGH
  else if x = 3840 ∧ y = 2160 then some .ULTRA
  else none

/-- `Quality::resolution` from `src/api/util.rs`, as an `(x, y)` pair. -/
def Quality.resolution : Quality → ℚ × ℚ
  | .LOW => (854, 480)
  | .MEDIUM => (1280, 720)
  | .HIGH => (1920, 1080)
  | .ULTRA => (3840, 2160)

/-- `Quality::usable` from `src/api/util.rs`: 95% of the resolution on each
axis. -/
def Quality.usable (q : Quality) : ℚ × ℚ :=
  ((95 / 100 : ℚ) * q.resolution.1, (95 / 100 : ℚ) * q.resolution.2)

/-- `interpolate` from `src/api/util.rs`, translated literally: note that the
second (y) scaling factor divides by `|y_axis.0| + |x_axis.1|`, i.e. the
second summand reads the X axis, exactly as in the source. -/
def interpolate (quality : Quality) (screen : Screen2D) (p : ℚ × ℚ) : ℚ × ℚ :=
  let usable_res := quality.usable
  let center := screen.get_center_pixels
  let scaling_factor :=
    (usable_res.1 / (|screen.x_axis.1| + |screen.x_axis.2|),
     usable_res.2 / (|screen.y_axis.1| + |screen.x_axis.2|))
  (p.1 * scaling_factor.1 + center.1, -p.2 * scaling_factor.2 + center.2)

/-- Modelled from the spec (for comparison with `interpolate`): the per-axis
mapping the specification describes, with the y scaling factor divided by the
sum of the absolute Y-axis bounds `|y_min| + |y_max|`. -/
def interpolate_as_specified (quality : Quality) (screen : Screen2D)
    (p : ℚ × ℚ) : ℚ × ℚ :=
  let usable_res := quality.usable
  let center := screen.get_center_pixels
  let scaling_factor :=
    (usable_res.1 / (|screen.x_axis.1| + |screen.x_axis.2|),
     usable_res.2 / (|screen.y_axis.1| + |screen.y_axis.2|))
  (p.1 * scaling_factor.1 + center.1, -p.2 * scaling_factor.2 + center.2)

/-- The Rust `as u32` cast of a (nonnegative-or-small) float product:
truncation toward zero with saturation at 0, so `Int.toNat ∘ Int.floor`. -/
def f32_as_u32 (x : ℚ) : Nat := x.floor.toNat

/-- The frame count computed in `move_along_parametric`
(`src/animation/vector.rs` line 91): `(duration * fps as f32) as u32`. -/
def frame_count (duration : ℚ) (fps : Nat) : Nat :=
  f32_as_u32 (duration * (fps : ℚ))

/-- `move_along_parametric` from `src/animation/vector.rs`, restricted to its
state effect on the screen context.  Each spawned frame task either saves its
frame and increments the shared completed counter (`taskOk i = true`) or sets
the shared error flag (`taskOk i = false`).  After the join barrier the call
fails, leaving the counter untouched, when the error flag is set or the
completed count differs from the total; otherwise it calls
`change_current_frame` with `current_frame + frames`, discarding that call's
own `Result` exactly as the source does. -/
def move_along_parametric (s : Screen2D) (duration : ℚ)
    (taskOk : Nat → Bool) : Screen2D × Except String Unit :=
  let frames := frame_count duration s.fps
  let completed := ((List.range frames).filter (fun i => taskOk i)).length
  let has_error := (List.range frames).any (fun i => !taskOk i)
  if has_error = true ∨ completed ≠ frames then
    (s, .error ("Frame generation failed. Completed: " ++ toString completed
        ++ ", Total: " ++ toString frames))
  else
    ((s.change_current_frame (s.current_frame + frames)).1, .ok ())

/-- The parametric function the `rotate` method of `src/animation/vector.rs`
(lines 182-204) passes to `move_along_parametric`, translated literally: for
an object at `(x, y)` and a rotation `center`, the first coordinate uses
`cos t` and `sin t`, but the second coordinate multiplies the x-offset by
`sin angle` (the total angle, constant in `t`), exactly as the source does. -/
noncomputable def rotate_method_parametric (x y : ℝ) (center : ℝ × ℝ)
    (angle : ℝ) (t : ℝ) : ℝ × ℝ :=
  ((x - center.1) * Real.cos t - (y - center.2) * Real.sin t + center.1,
   (x - center.1) * Real.sin angle + (y - center.2) * Real.cos t + center.2)

/-- The free function `rotate` of `src/animation/vector.rs` (lines 349-357):
the standard rotation of a point about a center by `angle`. -/
noncomputable def rotate_point (p : ℝ × ℝ) (angle : ℝ) (c : ℝ × ℝ) : ℝ × ℝ :=
  ((p.1 - c.1) * Real.cos angle - (p.2 - c.2) * Real.sin angle + c.1,
   (p.1 - c.1) * Real.sin angle + (p.2 - c.2) * Real.cos angle + c.2)

/-!  ## Matrices (`src/api/matrix.rs`), instantiated at exact rationals -/

/-- `Matrix<T>` from `src/api/matrix.rs` at the exact-arithmetic
instantiation: a row-major list of rows.  (The `Matrix::new` invariants,
non-emptiness and rectangularity, are not baked into the type, matching the
crate-internal direct construction used by the source.) -/
structure MatrixQ where
  values : List (List ℚ)
deriving DecidableEq, Repr

/-- `Matrix::get_dimensions`: `(row count, length of the first row)`. -/
def MatrixQ.get_dimensions (m : MatrixQ) : Nat × Nat :=
  (m.values.length, (m.values.headD []).length)

/-- The recursive cofactor expansion of `Matrix::determinant`
(`src/api/matrix.rs` lines 184-215) on the raw row list: base case size 1
returns the single entry; otherwise for each column of the first row, the
minor keeps rows `1..size` with that column erased, and the signed terms
`(-1)^col * values[0][col] * det(minor)` are summed.  (The source reaches
this code only for nonempty square matrices, so the `[]` case is junk.) -/
def detValues : List (List ℚ) → ℚ
  | [] => 0
  | [row] => row.headD 0
  | first :: rest =>
      ((List.range (rest.length + 1)).map (fun col =>
        (if col % 2 = 0 then (1 : ℚ) else -1) * first.getD col 0
          * detValues (rest.map (fun row => row.eraseIdx col)))).sum
termination_by values => values.length
decreasing_by
  simp only [List.length_map, List.length_cons]
  omega

/-- `Matrix::determinant`: fails on a non-square matrix, otherwise runs the
cofactor expansion `detValues`. -/
def MatrixQ.determinant (m : MatrixQ) : Except String ℚ :=
  if m.get_dimensions.1 ≠ m.get_dimensions.2 then
    .error ("must be a square matrix")
  else
    .ok (detValues m.values)

/-- The row list built by `Matrix::identity` (`src/api/matrix.rs` lines
101-114): row `i` is all zeros except a one at index `i`. -/
def identityValues (n : Nat) : List (List ℚ) :=
  (List.range n).map (fun i =>
    (List.range n).map (fun j => if j = i then (1 : ℚ) else 0))

/-- `Matrix::identity`: `None` for dimension 0, otherwise the `n × n`
identity row list. -/
def MatrixQ.identity (n : Nat) : Option MatrixQ :=
  if n = 0 then none else some ⟨identityValues n⟩

/-- `Matrix * scalar` from `src/api/matrix.rs`: scales every entry. -/
def MatrixQ.mul_scalar (m : MatrixQ) (s : ℚ) : MatrixQ :=
  ⟨m.values.map (fun row => row.map (fun v => v * s))⟩

/-- `Matrix::invert_2d` (`src/api/matrix.rs` lines 312-324): errors when the
matrix is not 2×2, then computes `[[d, -b], [-c, a]] * (1 / det)` where the
only error propagated by the `?` operator is `determinant`'s own non-square
check.  Division is total (the `f32` instantiation of the source yields
non-finite entries rather than an error when `det = 0`). -/
def MatrixQ.invert_2d (m : MatrixQ) : Except String MatrixQ :=
  if m.get_dimensions ≠ (2, 2) then .error ("Matrix is not 2x2")
  else
    let a := (m.values.headD []).getD 0 0
    let b := (m.values.headD []).getD 1 0
    let c := (m.values.getD 1 []).getD 0 0
    let d := (m.values.getD 1 []).getD 1 0
    match m.determinant with
    | .error e => .error e
    | .ok det => .ok (MatrixQ.mul_scalar ⟨[[d, -b], [-c, a]]⟩ (1 / det))

/-!  ## Vectors (`src/api/vector.rs`)

The source is generic over the `Number` trait.  Two instantiations are
embedded: the `i32` instantiation `normZ`/`normalizeZ` (integer `sqrt`
truncates toward the float result, integer division truncates toward zero)
and the exact-real instantiation `normR`/`normalizeR` idealizing `f32`/`f64`.
-/

/-- The `i32` implementation of `Number::sqrt` from `src/api/util.rs`:
`(self as f64).sqrt() as i32`, i.e. the truncated square root (`0` on
negative inputs, where the float square root is NaN and casts to 0). -/
def int_sqrt (x : ℤ) : ℤ := Int.ofNat (Nat.sqrt x.toNat)

/-- `Vector::norm` at `i32`: fold of `acc + a * a` over the entries, then the
integer square root. -/
def normZ (v : List ℤ) : ℤ :=
  int_sqrt (v.foldl (fun acc a => acc + a * a) 0)

/-- `Vector::normalize` at `i32`: errors when the norm is zero, otherwise
divides every entry by the norm.  `Int.div` is used because Rust integer
division truncates toward zero, unlike the flooring `/` of `ℤ`. -/
def normalizeZ (v : List ℤ) : Except String (List ℤ) :=
  if normZ v = 0 then .error ("Cannot normalize vector of norm 0")
  else .ok (v.map (fun a => Int.tdiv a (normZ v)))

/-- `Vector::norm` at the exact-real instantiation: `sqrt (Σ a * a)`. -/
noncomputable def normR (v : List ℝ) : ℝ :=
  Real.sqrt (v.foldl (fun acc a => acc + a * a) 0)

open Classical in
/-- `Vector::normalize` at the exact-real instantiation. -/
noncomputable def normalizeR (v : List ℝ) : Except String (List ℝ) :=
  if normR v = 0 then .error ("Cannot normalize vector of norm 0")
  else .ok (v.map (fun a => a / normR v))

/-- The screen of the source test `test_center` (`src/api/screen.rs`):
x range `(-10, 10)`, y range `(-10, 15)`, resolution 1920×1080, fps 30. -/
def screenEx : Screen2D :=
  { x_axis := (-10, 10), y_axis := (-10, 15), save_directory := "",
    current_frame := 0, fps := 30, width := 1920, height := 1080 }

/-!  ## Theorems -/

/-- C9: `Quality` construction from a `(width, height)` pair succeeds for
exactly the four supported resolutions and rejects every other pair. -/
theorem quality_new_iff (x y : Nat) :
    (Quality.new x y).isSome = true ↔
      ((x, y) = (854, 480) ∨ (x, y) = (1280, 720) ∨
       (x, y) = (1920, 1080) ∨ (x, y) = (3840, 2160)) := by
  unfold Quality.new
  split_ifs with h1 h2 h3 h4 <;> simp_all [Prod.ext_iff]

/-- C10: `change_dimensions` never changes the save directory, frame
counter, fps, width or height, and when it reports an error the axis ranges
are unchanged as well. -/
theorem change_dimensions_frame (s : Screen2D) (xr yr : ℚ × ℚ) :
    (s.change_dimensions xr yr).1.save_directory = s.save_directory ∧
    (s.change_dimensions xr yr).1.current_frame = s.current_frame ∧
    (s.change_dimensions xr yr).1.fps = s.fps ∧
    (s.change_dimensions xr yr).1.width = s.width ∧
    (s.change_dimensions xr yr).1.height = s.height ∧
    (∀ e, (s.change_dimensions xr yr).2 = .error e →
      (s.change_dimensions xr yr).1.x_axis = s.x_axis ∧
      (s.change_dimensions xr yr).1.y_axis = s.y_axis) := by
  unfold Screen2D.change_dimensions
  split_ifs with h <;> simp

/-- Instantiation of `change_dimensions_frame` at a concrete screen and an
invalid requested range (the error case). -/
theorem change_dimensions_frame_witness :
    (screenEx.change_dimensions (0, 1) (1, 0)).1.save_directory = screenEx.save_directory ∧
    (screenEx.change_dimensions (0, 1) (1, 0)).1.current_frame = screenEx.current_frame ∧
    (screenEx.change_dimensions (0, 1) (1, 0)).1.fps = screenEx.fps ∧
    (screenEx.change_dimensions (0, 1) (1, 0)).1.width = screenEx.width ∧
    (screenEx.change_dimensions (0, 1) (1, 0)).1.height = screenEx.height ∧
    (∀ e, (screenEx.change_dimensions (0, 1) (1, 0)).2 = .error e →
      (screenEx.change_dimensions (0, 1) (1, 0)).1.x_axis = screenEx.x_axis ∧
      (screenEx.change_dimensions (0, 1) (1, 0)).1.y_axis = screenEx.y_axis) :=
  change_dimensions_frame screenEx (0, 1) (1, 0)

/-- C4: on every successfully constructed screen, `get_center_pixels`
returns `(width * |x_min| / (|x_min| + |x_max|), height * |y_max| / (|y_max| + |y_min|))`. -/
theorem get_center_pixels_ok (xr yr : ℚ × ℚ) (sd : String) (fps w h : Nat)
    (s : Screen2D) (hs : Screen2D.new xr yr sd fps w h = some s) :
    s.get_center_pixels =
      ((w : ℚ) * |xr.1| / (|xr.1| + |xr.2|),
       (h : ℚ) * |yr.2| / (|yr.2| + |yr.1|)) := by
  unfold Screen2D.new at hs
  split_ifs at hs with hcond
  cases hs
  simp only [Screen2D.get_center_pixels, Prod.ext_iff]
  constructor <;> ring

/-- Instantiation of `get_center_pixels_ok` at the screen of the source test
`test_center`: x range `(-10, 10)`, y range `(-10, 15)`, 1920×1080, giving
exactly `(960, 648)`. -/
theorem get_center_pixels_ok_witness :
    Screen2D.new (-10, 10) (-10, 15) ("") 30 1920 1080 = some screenEx ∧
    screenEx.get_center_pixels = (960, 648) := by
  have hs : Screen2D.new (-10, 10) (-10, 15) ("") 30 1920 1080 = some screenEx := by
    decide
  refine ⟨hs, ?_⟩
  rw [get_center_pixels_ok _ _ _ _ _ _ _ hs]
  norm_num

/-- C2: on the screen with x range `(-10, 10)`, y range `(-10, 15)` at
1920×1080, the code's `interpolate` maps `(0, 1)` to a y pixel of `596.7`
(its y scaling factor divides by `|y_min| + |x_max| = 20`), while the
per-axis mapping stated by the specification gives `606.96` (y scaling
factor `0.95 * 1080 / (|y_min| + |y_max|) = 1026 / 25`): the y denominator
of the source reads the X axis. -/
theorem interpolate_y_denominator_mixes_axes :
    interpolate .HIGH screenEx (0, 1) = (960, 5967 / 10) ∧
    interpolate_as_specified .HIGH screenEx (0, 1) = (960, 15174 / 25) ∧
    ((5967 / 10 : ℚ) ≠ 15174 / 25) := by
  refine ⟨?_, ?_, by norm_num⟩
  · norm_num [interpolate, Quality.usable, Quality.resolution,
      Screen2D.get_center_pixels, screenEx]
  · norm_num [interpolate_as_specified, Quality.usable, Quality.resolution,
      Screen2D.get_center_pixels, screenEx]

/-- C6 counterexample: the 2×2 matrix `[[1, 1], [1, 1]]` has determinant 0,
yet `invert_2d` returns `Ok` — the `?` operator only propagates
`determinant`'s non-square error, and the division by the zero determinant
is not an error (the `f32` instantiation yields non-finite entries). -/
theorem invert_2d_det_zero_returns_ok :
    MatrixQ.determinant ⟨[[1, 1], [1, 1]]⟩ = .ok 0 ∧
    (MatrixQ.invert_2d ⟨[[1, 1], [1, 1]]⟩).isOk = true := by
  constructor
  · norm_num [MatrixQ.determinant, MatrixQ.get_dimensions, detValues,
      List.range_succ, List.range_zero]
  · norm_num [MatrixQ.invert_2d, MatrixQ.determinant, MatrixQ.get_dimensions,
      detValues, List.range_succ, List.range_zero, Except.isOk, Except.toBool]

/-- C6 (amended): `invert_2d` returns an error exactly when the matrix is
not 2×2; a zero determinant is not detected. -/
theorem invert_2d_isOk_iff (m : MatrixQ) :
    (MatrixQ.invert_2d m).isOk = true ↔ m.get_dimensions = (2, 2) := by
  by_cases h : m.get_dimensions = (2, 2)
  · have h1 : m.get_dimensions.1 = m.get_dimensions.2 := by rw [h]
    simp [MatrixQ.invert_2d, MatrixQ.determinant, h, h1, Except.isOk, Except.toBool]
  · simp [MatrixQ.invert_2d, h, Except.isOk, Except.toBool]

/-- C3 counterexample: at `duration = 3/2` and `fps = 1` the code computes
`frame_count = 1` (the `as u32` cast truncates), while rounding the product
`3/2` to the nearest integer gives 2. -/
theorem frame_count_truncates_not_rounds :
    frame_count (3 / 2) 1 = 1 ∧
    round ((3 / 2 : ℚ) * ((1 : Nat) : ℚ)) = 2 ∧ ((1 : ℤ) ≠ 2) := by
  refine ⟨?_, by norm_num [round_eq], by decide⟩
  have h : frame_count (3 / 2) 1 = (⌊(3 / 2 : ℚ) * ((1 : Nat) : ℚ)⌋).toNat := rfl
  rw [h]
  norm_num

/-- C3 (amended): for a nonnegative duration, the frame count is the
truncation (floor) of `duration * fps`, not its rounding. -/
theorem frame_count_eq_floor (duration : ℚ) (fps : Nat) (h : 0 ≤ duration) :
    (frame_count duration fps : ℤ) = ⌊duration * (fps : ℚ)⌋ := by
  unfold frame_count f32_as_u32
  have h0 : (0 : ℚ) ≤ duration * (fps : ℚ) := mul_nonneg h (by positivity)
  have hfl : (duration * (fps : ℚ)).floor = ⌊duration * (fps : ℚ)⌋ := rfl
  rw [hfl, Int.toNat_of_nonneg (Int.floor_nonneg.mpr h0)]

/-- Instantiation of `frame_count_eq_floor` at `duration = 3/2`, `fps = 1`. -/
theorem frame_count_eq_floor_witness :
    (0 : ℚ) ≤ 3 / 2 ∧
    (frame_count (3 / 2) 1 : ℤ) = ⌊(3 / 2 : ℚ) * ((1 : Nat) : ℚ)⌋ :=
  ⟨by norm_num, frame_count_eq_floor (3 / 2) 1 (by norm_num)⟩

/-- Unfolding lemma for `move_along_parametric`: the join barrier inspects
the error flag and completed count, and only the success branch touches the
frame counter. -/
theorem move_along_parametric_eq (s : Screen2D) (duration : ℚ) (taskOk : Nat → Bool) :
    move_along_parametric s duration taskOk =
      (if ((List.range (frame_count duration s.fps)).any fun i => !taskOk i) = true
          ∨ ((List.range (frame_count duration s.fps)).filter
              (fun i => taskOk i)).length ≠ frame_count duration s.fps
       then (s, .error ("Frame generation failed. Completed: "
          ++ toString (((List.range (frame_count duration s.fps)).filter
              (fun i => taskOk i)).length)
          ++ ", Total: " ++ toString (frame_count duration s.fps)))
       else ((s.change_current_frame
          (s.current_frame + frame_count duration s.fps)).1, .ok ())) := rfl

/-- C1: a `move_along_parametric` call starting at frame counter `K` with
`F` computed frames returns `Ok` and leaves the counter at exactly `K + F`
when every frame task succeeds, and on any single-frame failure returns the
error reporting the completed and total counts with the counter unchanged. -/
theorem move_along_parametric_counter (s : Screen2D) (duration : ℚ)
    (taskOk : Nat → Bool) (F : Nat) (hF : F = frame_count duration s.fps) :
    ((∀ i, i < F → taskOk i = true) →
      (move_along_parametric s duration taskOk).2 = .ok () ∧
      (move_along_parametric s duration taskOk).1.current_frame = s.current_frame + F) ∧
    ((∃ i, i < F ∧ taskOk i = false) →
      (move_along_parametric s duration taskOk).2 =
        .error ("Frame generation failed. Completed: "
          ++ toString (((List.range F).filter (fun i => taskOk i)).length)
          ++ ", Total: " ++ toString F) ∧
      (move_along_parametric s duration taskOk).1.current_frame = s.current_frame) := by
  subst hF
  constructor
  · intro hall
    have hfilter : (List.range (frame_count duration s.fps)).filter (fun i => taskOk i)
        = List.range (frame_count duration s.fps) :=
      List.filter_eq_self.mpr (fun a ha => hall a (List.mem_range.mp ha))
    have herr : ((List.range (frame_count duration s.fps)).any fun i => !taskOk i) = false := by
      simp only [List.any_eq_false]
      intro i hi
      simp [hall i (List.mem_range.mp hi)]
    rw [move_along_parametric_eq, if_neg]
    · constructor
      · rfl
      · simp only [Screen2D.change_current_frame]
        by_cases hF0 : frame_count duration s.fps = 0
        · simp [hF0]
        · rw [if_pos (Nat.lt_add_of_pos_right (Nat.pos_of_ne_zero hF0))]
    · rw [herr, hfilter, List.length_range]
      simp
  · rintro ⟨i, hi, hfalse⟩
    have herr : ((List.range (frame_count duration s.fps)).any fun i => !taskOk i) = true :=
      List.any_eq_true.mpr ⟨i, List.mem_range.mpr hi, by simp [hfalse]⟩
    rw [move_along_parametric_eq, if_pos (Or.inl herr)]
    exact ⟨rfl, rfl⟩

/-- Instantiation of `move_along_parametric_counter`: one frame at 30 fps,
every task succeeding, advances the counter from 0 to 1. -/
theorem move_along_parametric_counter_witness :
    ((1 : Nat) = frame_count (1 / 30) screenEx.fps) ∧
    ((move_along_parametric screenEx (1 / 30) (fun _ => true)).2 = .ok () ∧
     (move_along_parametric screenEx (1 / 30) (fun _ => true)).1.current_frame
       = screenEx.current_frame + 1) := by
  have h1 : (1 : Nat) = frame_count (1 / 30) screenEx.fps := by
    have h : frame_count (1 / 30) screenEx.fps
        = (⌊(1 / 30 : ℚ) * ((30 : Nat) : ℚ)⌋).toNat := rfl
    rw [h]; norm_num
  exact ⟨h1, (move_along_parametric_counter screenEx (1 / 30) (fun _ => true) 1 h1).1
    (fun i _ => rfl)⟩

/-- C5: evaluation showing the `rotate` method's parametric function is not
the rotation by `t`: for an object at `(1, 0)`, center `(0, 0)` and total
angle `π`, the code's function at `t = π / 2` yields `(0, 0)` (its second
coordinate multiplies the x-offset by `sin angle = sin π = 0`), while the
true rotation by `t = π / 2` — the repository's own free `rotate` function —
yields `(0, 1)`. -/
theorem rotate_method_parametric_uses_angle_sin :
    rotate_method_parametric 1 0 (0, 0) Real.pi (Real.pi / 2) = (0, 0) ∧
    rotate_point (1, 0) (Real.pi / 2) (0, 0) = (0, 1) := by
  constructor <;>
  · simp only [rotate_method_parametric, rotate_point, Prod.ext_iff,
      Real.cos_pi_div_two, Real.sin_pi_div_two, Real.sin_pi]
    norm_num

/-- C7 counterexample at the integer instantiation of `Number`: the `i32`
vector `[1, 1, 1, 1, 1]` has norm `sqrt 5 = 2 ≠ 0`, but normalizing divides
each entry by 2 with truncation, giving the zero vector whose norm is `0`,
not `one()`. -/
theorem normalizeZ_norm_not_one :
    normZ [1, 1, 1, 1, 1] ≠ 0 ∧
    normalizeZ [1, 1, 1, 1, 1] = .ok [0, 0, 0, 0, 0] ∧
    normZ [0, 0, 0, 0, 0] = 0 := by
  have ht : Int.toNat 5 = 5 := rfl
  have h5 : Nat.sqrt 5 = 2 := (Nat.eq_sqrt.mpr (by decide)).symm
  have h0 : Nat.sqrt 0 = 0 := Nat.sqrt_zero
  refine ⟨?_, ?_, ?_⟩
  · norm_num [normZ, int_sqrt, ht, h5]
  · norm_num [normalizeZ, normZ, int_sqrt, ht, h5]
    rfl
  · norm_num [normZ, int_sqrt, h0]

/-- Folding `acc + a * a` equals the accumulator plus the sum of squares. -/
theorem foldl_add_sq (v : List ℝ) (c : ℝ) :
    v.foldl (fun acc a => acc + a * a) c = c + (v.map (fun a => a * a)).sum := by
  induction v generalizing c with
  | nil => simp
  | cons a t ih => simp [ih]; ring

/-- `normR` is the square root of the sum of squares. -/
theorem normR_eq (v : List ℝ) :
    normR v = Real.sqrt ((v.map (fun a => a * a)).sum) := by
  simp [normR, foldl_add_sq]

/-- A sum of squares of reals is nonnegative. -/
theorem sum_sq_nonneg (v : List ℝ) : 0 ≤ (v.map (fun a => a * a)).sum := by
  apply List.sum_nonneg
  intro x hx
  obtain ⟨a, _, rfl⟩ := List.mem_map.mp hx
  exact mul_self_nonneg a

/-- C7 (amended: at the exact-arithmetic instantiation of `Number`
idealizing `f32`/`f64`): a nonempty vector with nonzero norm normalizes to a
vector of norm `one()`, and a zero-norm vector fails with the
degenerate-vector error. -/
theorem normalizeR_norm_one (v : List ℝ) (hv : v ≠ []) :
    (normR v ≠ 0 → ∃ w, normalizeR v = .ok w ∧ normR w = 1) ∧
    (normR v = 0 → normalizeR v = .error ("Cannot normalize vector of norm 0")) := by
  clear hv
  constructor
  · intro h
    refine ⟨v.map (fun a => a / normR v), ?_, ?_⟩
    · simp [normalizeR, h]
    · have hS : 0 ≤ (v.map (fun a => a * a)).sum := sum_sq_nonneg v
      have hn0 : 0 ≤ normR v := by rw [normR_eq]; exact Real.sqrt_nonneg _
      have hmap : (v.map (fun a => a / normR v)).map (fun a => a * a)
          = v.map (fun a => (a * a) * ((normR v * normR v)⁻¹)) := by
        rw [List.map_map]
        congr 1
        funext a
        simp only [Function.comp_apply]
        ring
      rw [normR_eq, hmap]
      have hsum : (v.map (fun a => (a * a) * ((normR v * normR v)⁻¹))).sum
          = (v.map (fun a => a * a)).sum * (normR v * normR v)⁻¹ := by
        rw [← List.sum_map_mul_right]
      rw [hsum, Real.sqrt_mul hS, Real.sqrt_inv, Real.sqrt_mul_self hn0,
        ← normR_eq]
      exact mul_inv_cancel₀ h
  · intro h
    simp [normalizeR, h]

/-- Instantiation of `normalizeR_norm_one` at the one-entry vector `[1]`. -/
theorem normalizeR_norm_one_witness :
    ([(1 : ℝ)] ≠ []) ∧
    ((normR [(1 : ℝ)] ≠ 0 → ∃ w, normalizeR [(1 : ℝ)] = .ok w ∧ normR w = 1) ∧
     (normR [(1 : ℝ)] = 0 →
       normalizeR [(1 : ℝ)] = .error ("Cannot normalize vector of norm 0"))) :=
  ⟨by simp, normalizeR_norm_one [(1 : ℝ)] (by simp)⟩

/-- Cofactor-expansion unfolding of `detValues` for a matrix with at least
two rows. -/
theorem detValues_cons (first : List ℚ) (rest : List (List ℚ)) (hr : rest ≠ []) :
    detValues (first :: rest) =
      ((List.range (rest.length + 1)).map (fun col =>
        (if col % 2 = 0 then (1 : ℚ) else -1) * first.getD col 0
          * detValues (rest.map (fun row => row.eraseIdx col)))).sum := by
  cases rest with
  | nil => exact absurd rfl hr
  | cons b l =>
    rw [detValues]
    simp

/-- The identity row list of size `n + 1`, decomposed into its first row and
the remaining rows (whose single one sits at index `i + 1`). -/
theorem identityValues_succ_cons (n : Nat) :
    identityValues (n + 1) =
      ((List.range (n + 1)).map (fun j => if j = 0 then (1 : ℚ) else 0)) ::
        (List.range n).map (fun i =>
          (List.range (n + 1)).map (fun j => if j = i + 1 then (1 : ℚ) else 0)) := by
  simp only [identityValues, List.range_succ_eq_map, List.map_cons, List.map_map]
  congr 1

/-- Erasing column 0 from the non-first rows of the identity of size `n + 2`
yields the identity row list of size `n + 1`. -/
theorem identityValues_minor (n : Nat) :
    ((List.range (n + 1)).map (fun i =>
        (List.range (n + 2)).map (fun j => if j = i + 1 then (1 : ℚ) else 0))).map
      (fun row => row.eraseIdx 0) = identityValues (n + 1) := by
  rw [List.map_map, identityValues]
  apply List.map_congr_left
  intro i hi
  simp only [Function.comp_apply]
  rw [List.range_succ_eq_map (n + 1)]
  simp [List.map_map, Function.comp, Nat.succ_eq_add_one]

/-- Every entry of the identity's first row beyond column 0 is zero. -/
theorem first_row_getD_succ (n j : Nat) :
    ((List.range (n + 2)).map (fun j => if j = 0 then (1 : ℚ) else 0)).getD (j + 1) 0 = 0 := by
  rcases lt_or_le (j + 1) (n + 2) with h | h
  · rw [List.getD_eq_getElem?_getD]
    simp [List.getElem?_map, List.getElem?_range h]
  · rw [List.getD_eq_getElem?_getD, List.getElem?_eq_none]
    · rfl
    · simpa using h

/-- The identity's first row has a one at column 0. -/
theorem first_row_getD_zero (n : Nat) :
    ((List.range (n + 2)).map (fun j => if j = 0 then (1 : ℚ) else 0)).getD 0 0 = 1 := by
  rw [List.getD_eq_getElem?_getD]
  simp [List.getElem?_map, List.getElem?_range (by omega : 0 < n + 2)]

/-- The cofactor expansion evaluates the identity row list to 1: the column-0
term contributes `1 * det(identity minor)` and every other column multiplies
by the zero entry of the first row. -/
theorem detValues_identity (n : Nat) : detValues (identityValues (n + 1)) = 1 := by
  induction n with
  | zero => norm_num [identityValues, detValues, List.range_succ, List.range_zero]
  | succ k ih =>
    rw [identityValues_succ_cons (k + 1), detValues_cons _ _ (by simp)]
    rw [List.length_map, List.length_range]
    set A := (List.range (k + 2)).map (fun j => if j = 0 then (1 : ℚ) else 0) with hA
    set R := (List.range (k + 1)).map (fun i =>
      (List.range (k + 2)).map (fun j => if j = i + 1 then (1 : ℚ) else 0)) with hR
    have hA0 : A.getD 0 0 = 1 := by rw [hA]; exact first_row_getD_zero k
    have hAs : ∀ j, A.getD (j + 1) 0 = 0 := fun j => by
      rw [hA]; exact first_row_getD_succ k j
    have hminor : R.map (fun row => row.eraseIdx 0) = identityValues (k + 1) := by
      rw [hR]; exact identityValues_minor k
    rw [List.range_succ_eq_map (k + 1), List.map_cons, List.sum_cons]
    have hhead :
        (if 0 % 2 = 0 then (1 : ℚ) else -1) * A.getD 0 0
          * detValues (R.map (fun row => row.eraseIdx 0)) = 1 := by
      rw [hA0, hminor, ih]
      norm_num
    rw [hhead]
    have htail :
        ((List.map Nat.succ (List.range (k + 1))).map (fun col =>
          (if col % 2 = 0 then (1 : ℚ) else -1) * A.getD col 0
            * detValues (R.map (fun row => row.eraseIdx col)))).sum = 0 := by
      apply List.sum_eq_zero
      intro x hx
      obtain ⟨col, hcol, rfl⟩ := List.mem_map.mp hx
      obtain ⟨j, hj, rfl⟩ := List.mem_map.mp hcol
      rw [Nat.succ_eq_add_one, hAs j]
      ring
    rw [htail, add_zero]

/-- C8: for every `n > 0`, `identity(n)` is constructed and its determinant
— the first-row cofactor expansion with base case `n = 1` — is `one()`. -/
theorem determinant_identity_one (n : Nat) (hn : 0 < n) :
    ∃ m, MatrixQ.identity n = some m ∧ m.determinant = .ok 1 := by
  obtain ⟨k, rfl⟩ : ∃ k, n = k + 1 := ⟨n - 1, by omega⟩
  refine ⟨⟨identityValues (k + 1)⟩, by simp [MatrixQ.identity], ?_⟩
  have hdim : (MatrixQ.mk (identityValues (k + 1))).get_dimensions = (k + 1, k + 1) := by
    simp [MatrixQ.get_dimensions, identityValues_succ_cons k]
  unfold MatrixQ.determinant
  rw [hdim]
  simp [detValues_identity k]

/-- Instantiation of `determinant_identity_one` at `n = 3`. -/
theorem determinant_identity_one_witness :
    0 < 3 ∧ ∃ m, MatrixQ.identity 3 = some m ∧ m.determinant = .ok 1 :=
  ⟨by decide, determinant_identity_one 3 (by decide)⟩
